import Mathlib

/-!
Verification development for the rsb/aws-serverless toolkit.

This file gives a shallow embedding, in Lean, of the parts of the Go source
that the properties below are about: the parameter-store client
(`pstore.Client`: `Param`, `Params`, `Path`, `ResolvePathPages`, `Put`,
`EnsurePathPrefix`, `handleAPIError`), the feature environment reconciler
(`Infra.ServiceEnvReport`), the timeout/panic-safe handler runner
(`Timeout.WithTimeConstraint`), and the API Gateway failure adapter
(`apigw.ProcessFailure`, `apigw.FailureToGatewayResponse`).

External collaborators (the `github.com/rsb/failure` error package and the
AWS SSM backend) are modelled from their documented behaviour: failures
carry a classification kind that survives wrapping, and the SSM backend
rejects a `PutParameter` on an existing key when `Overwrite` is false
(`ParameterAlreadyExists`) and reports `ParameterNotFound` from
`GetParameter` when a key is absent.

Go maps are association lists here; a Go `nil` map is modelled explicitly
(`GoMap.nil`) because assigning into a nil map is a runtime fault in Go,
and two of the checked functions do exactly that.
-/

/-! ### The failure taxonomy (external collaborator `github.com/rsb/failure`)

An error value is a classification kind plus a message; aggregate
(`Multi`) errors additionally carry the collected component messages.
`Wrap` and the `To*` converters add operation context to the message while
preserving the kind, so `IsNotFound` / `IsTimeout` / `IsPanic` checks stay
valid after wrapping (spec section 7 propagation policy). -/

inductive FailKind where
  | notFound
  | system
  | timeout
  | panicked
  | multiple
  | validation
deriving DecidableEq

structure Failure where
  kind : FailKind
  msg : String
  parts : List String
deriving DecidableEq

/-- `failure.System(msg)` : a System-classified failure. -/
def failure.System (m : String) : Failure := ⟨FailKind.system, m, []⟩

/-- `failure.NotFound(msg)` : a NotFound-classified failure. -/
def failure.NotFound (m : String) : Failure := ⟨FailKind.notFound, m, []⟩

/-- `failure.Timeout(msg)` : a Timeout-classified failure. -/
def failure.Timeout (m : String) : Failure := ⟨FailKind.timeout, m, []⟩

/-- `failure.Panic(msg)` : a Panic-classified failure. Its message is built
from the format argument alone; the function receives nothing else. -/
def failure.Panic (m : String) : Failure := ⟨FailKind.panicked, m, []⟩

/-- `failure.Multiple` : an aggregate failure carrying the collected
per-item error messages. -/
def failure.Multiple (errs : List String) : Failure :=
  ⟨FailKind.multiple, "multiple failures", errs⟩

/-- `failure.Wrap(err, msg)` : prefixes operation context onto the message,
preserving the kind (and, for aggregates, the collected parts). -/
def failure.Wrap (f : Failure) (m : String) : Failure :=
  ⟨f.kind, m ++ ": " ++ f.msg, f.parts⟩

/-- `failure.IsNotFound(err)`. -/
def failure.IsNotFound (f : Failure) : Bool := f.kind = FailKind.notFound

/-- `failure.IsTimeout(err)`. -/
def failure.IsTimeout (f : Failure) : Bool := f.kind = FailKind.timeout

/-- `failure.IsPanic(err)`. -/
def failure.IsPanic (f : Failure) : Bool := f.kind = FailKind.panicked

/-! ### Association lists standing in for Go maps -/

/-- Lookup in a Go map (association list): `v, ok := m[k]`. -/
def alistLookup {α : Type} : List (String × α) → String → Option α
  | [], _ => none
  | (k, v) :: rest, key => if k = key then some v else alistLookup rest key

/-- Assignment into a (non-nil) Go map: `m[k] = v` replaces an existing
entry for `k` or appends a new one. -/
def alistInsert {α : Type} : List (String × α) → String → α → List (String × α)
  | [], key, v => [(key, v)]
  | (k, w) :: rest, key, v =>
    if k = key then (key, v) :: rest else (k, w) :: alistInsert rest key v

/-- A Go map value, which can be `nil`. Assigning into a nil map is a
runtime fault in Go; reading from one is fine. -/
inductive GoMap (α : Type) where
  | nil
  | map (entries : List (String × α))
deriving DecidableEq

/-! ### The SSM backend (external collaborator, spec section 6)

The store itself is the external hierarchical key/value state. `fault`
injects a transport/backend error (any error other than the not-found
classification). -/

/-- The parameter store's external state: key/value pairs. -/
abbrev Store := List (String × String)

/-- A backend API error: either the typed `types.ParameterNotFound` that
`handleAPIError` detects with `errors.As`, or any other backend error. -/
inductive APIError where
  | parameterNotFound (msg : String)
  | other (msg : String)
deriving DecidableEq

/-- Backend `GetParameter`: returns the stored value, a
`ParameterNotFound` error when the key is absent, or the injected
transport fault. -/
def GetParameter (s : Store) (key : String) (fault : Option String) : Except APIError String :=
  match fault with
  | some em => Except.error (APIError.other em)
  | none =>
    match alistLookup s key with
    | some v => Except.ok v
    | none => Except.error (APIError.parameterNotFound "parameter not found")

/-- Backend `PutParameter` with the documented SSM semantics: when the key
already exists and `Overwrite` is false the call is rejected with
`ParameterAlreadyExists` and the store is unchanged; otherwise the value
is written. -/
def PutParameter (s : Store) (key value : String) (overwrite : Bool) : Except APIError Store :=
  if (alistLookup s key).isSome && !overwrite then
    Except.error (APIError.other "ParameterAlreadyExists")
  else
    Except.ok (alistInsert s key value)

/-! ### pstore client (src/unnamed/part_004, package pstore) -/

/-- `handleAPIError`: converts a backend error into a System failure,
except a typed `ParameterNotFound`, which becomes a NotFound failure. -/
def handleAPIError (e : APIError) (m : String) : Failure :=
  match e with
  | APIError.other em => ⟨FailKind.system, m ++ ": " ++ em, []⟩
  | APIError.parameterNotFound em => ⟨FailKind.notFound, m ++ ": " ++ em, []⟩

/-- `Client.Param`: rejects an empty key with a System failure, otherwise
asks the backend; backend errors are classified by `handleAPIError`.
(The source's nil-pointer guards on the response only default the result
to the empty string; the backend model always supplies the value.) -/
def Client.Param (s : Store) (fault : Option String) (key : String) : Except Failure String :=
  if key = "" then Except.error (failure.System "key is empty, a non empty key is required")
  else
    match GetParameter s key fault with
    | Except.error e =>
      Except.error (handleAPIError e ("c.api.GetParameter failed (" ++ key ++ ")"))
    | Except.ok v => Except.ok v

/-- Result of `Client.Put`: the previous value, the error (if any), the
backend store afterwards, and how many `PutParameter` calls were made. -/
structure PutOutcome where
  old : String
  err : Option Failure
  store : Store
  putCalls : Nat
deriving DecidableEq

/-- The tail of `Client.Put` after the initial read: the
overwrite/existence check (`isOverwrite == false && old != ""`) and the
`PutParameter` call. `old` is the value the read produced (the Go zero
value `""` on a not-found read). -/
def Client.putAfterRead (s : Store) (key value : String) (overwrite : Bool)
    (old : String) : PutOutcome :=
  if !overwrite && old ≠ "" then
    ⟨old, some (failure.System ("param (" ++ key ++ ") exists but overwrite is false")), s, 0⟩
  else
    match PutParameter s key value overwrite with
    | Except.error e =>
      ⟨old,
        some (handleAPIError e ("c.api.PutParameterWithContext failed (" ++ key ++ ")")),
        s, 1⟩
    | Except.ok s₂ => ⟨old, none, s₂, 1⟩

/-- `Client.Put`: reads the current value; a non-NotFound read error is
returned wrapped; if the read succeeded and the value is unchanged it is
a no-op; otherwise `Client.putAfterRead` runs. (The source's variadic
`overwrite ...bool` collapses to the `overwrite` flag here; backend
errors other than `ParameterNotFound` go through `failure.ToSystem`,
whose classification `handleAPIError` reproduces.) -/
def Client.Put (s : Store) (fault : Option String) (key value : String)
    (overwrite : Bool) : PutOutcome :=
  match Client.Param s fault key with
  | Except.error e =>
    if !(failure.IsNotFound e) then ⟨"", some (failure.Wrap e "c.Param failed"), s, 0⟩
    else Client.putAfterRead s key value overwrite ""
  | Except.ok old =>
    if old = value then ⟨old, none, s, 0⟩
    else Client.putAfterRead s key value overwrite old

/-! ### Helper lemmas about the client read path -/

theorem Param_of_lookup (s : Store) (key v : String) (hk : key ≠ "")
    (he : alistLookup s key = some v) : Client.Param s none key = Except.ok v := by
  simp [Client.Param, GetParameter, hk, he]

theorem Param_of_absent (s : Store) (key : String) (hk : key ≠ "")
    (he : alistLookup s key = none) :
    Client.Param s none key =
      Except.error (handleAPIError (APIError.parameterNotFound "parameter not found")
        ("c.api.GetParameter failed (" ++ key ++ ")")) := by
  simp [Client.Param, GetParameter, hk, he]

theorem Param_of_fault (s : Store) (key em : String) (hk : key ≠ "") :
    Client.Param s (some em) key =
      Except.error (handleAPIError (APIError.other em)
        ("c.api.GetParameter failed (" ++ key ++ ")")) := by
  simp [Client.Param, GetParameter, hk]

/-- Claim C7: for a non-empty key, `Param` classifies a backend fault as a
System failure, classifies an absent parameter as a NotFound failure, and
on success returns the stored string with no error — in particular a
stored empty string comes back as `.ok ""`, distinguishable from
NotFound. -/
theorem param_error_classification (s : Store) (key : String) (hk : key ≠ "") :
    (∀ em : String, ∃ f : Failure,
      Client.Param s (some em) key = Except.error f ∧ f.kind = FailKind.system) ∧
    (alistLookup s key = none → ∃ f : Failure,
      Client.Param s none key = Except.error f ∧ f.kind = FailKind.notFound) ∧
    (∀ v : String, alistLookup s key = some v →
      Client.Param s none key = Except.ok v) := by
  refine ⟨?_, ?_, ?_⟩
  · intro em
    exact ⟨_, Param_of_fault s key em hk, rfl⟩
  · intro he
    exact ⟨_, Param_of_absent s key hk he, rfl⟩
  · intro v he
    exact Param_of_lookup s key v hk he

/-- Witness for C7 at concrete inputs: a transport fault on key `k` is
System-classified, a missing key is NotFound-classified, and a parameter
legitimately holding `""` reads back as `.ok ""`. -/
theorem param_error_classification_witness :
    (∃ f : Failure, Client.Param [("k", "")] (some "io error") "k" = Except.error f ∧
      f.kind = FailKind.system) ∧
    (∃ f : Failure, Client.Param [] none "k" = Except.error f ∧
      f.kind = FailKind.notFound) ∧
    Client.Param [("k", "")] none "k" = Except.ok "" := by
  have h := param_error_classification [("k", "")] "k" (by decide)
  have h₂ := param_error_classification ([] : Store) "k" (by decide)
  exact ⟨h.1 "io error", h₂.2.1 rfl, h.2.2 "" rfl⟩

/-- Claim C8: when the stored value already equals the new value, `Put` is
a no-op for either overwrite setting: it returns the existing value with
no error, makes zero `PutParameter` calls, and leaves the store
unchanged. -/
theorem put_noop_when_equal (s : Store) (key v : String) (ow : Bool) (hk : key ≠ "")
    (he : alistLookup s key = some v) :
    Client.Put s none key v ow = ⟨v, none, s, 0⟩ := by
  simp [Client.Put, Param_of_lookup s key v hk he]

/-- Witness for C8: with `k ↦ "v"` stored, `Put k "v"` is a no-op for both
overwrite settings. -/
theorem put_noop_when_equal_witness :
    Client.Put [("k", "v")] none "k" "v" false = ⟨"v", none, [("k", "v")], 0⟩ ∧
    Client.Put [("k", "v")] none "k" "v" true = ⟨"v", none, [("k", "v")], 0⟩ :=
  ⟨put_noop_when_equal [("k", "v")] "k" "v" false (by decide) (by decide),
   put_noop_when_equal [("k", "v")] "k" "v" true (by decide) (by decide)⟩

/-- Counterexample for C1: the key `"k"` is stored with the existing value
`""`, which differs from the new value `"x"`, yet
`Put "k" "x" overwrite=false` performs one `PutParameter` backend write
call rather than none — the code's existence test is `old != ""`, so an
existing empty-string value is treated as absent. -/
theorem put_conflict_empty_old_counterexample :
    alistLookup [("k", "")] "k" = some "" ∧ ("" : String) ≠ "x" ∧
    (Client.Put [("k", "")] none "k" "x" false).putCalls = 1 := by
  refine ⟨rfl, by decide, rfl⟩

/-- Claim C1 as amended: with overwrite=false and an existing stored value
`old ≠ v`, `Put` returns a non-NotFound error, leaves the store unchanged
(a subsequent `Param` still returns `old`), and performs no backend write
call when `old ≠ ""`; when the existing value is the empty string it
instead performs exactly one `PutParameter` call with overwrite=false,
which the backend rejects, so stored state is still unchanged. -/
theorem put_conflict_amended (s : Store) (key v old : String) (hk : key ≠ "")
    (he : alistLookup s key = some old) (hne : old ≠ v) :
    (∃ f : Failure, (Client.Put s none key v false).err = some f ∧
      f.kind ≠ FailKind.notFound) ∧
    (Client.Put s none key v false).store = s ∧
    (Client.Put s none key v false).putCalls = (if old = "" then 1 else 0) ∧
    Client.Param s none key = Except.ok old := by
  have hp := Param_of_lookup s key old hk he
  by_cases h0 : old = ""
  · subst h0
    have hsome : (alistLookup s key).isSome = true := by simp [he]
    simp [Client.Put, hp, hne, Client.putAfterRead, PutParameter, hsome, handleAPIError]
  · simp [Client.Put, hp, hne, Client.putAfterRead, h0, failure.System]

/-- Witness for C1's amended claim at concrete inputs: with `k ↦ "old"`
stored, `Put k "new" overwrite=false` errors without writing; with
`k ↦ ""` stored, it makes exactly one rejected `PutParameter` call. -/
theorem put_conflict_amended_witness :
    ((∃ f : Failure, (Client.Put [("k", "old")] none "k" "new" false).err = some f ∧
        f.kind ≠ FailKind.notFound) ∧
      (Client.Put [("k", "old")] none "k" "new" false).store = [("k", "old")] ∧
      (Client.Put [("k", "old")] none "k" "new" false).putCalls =
        (if ("old" : String) = "" then 1 else 0) ∧
      Client.Param [("k", "old")] none "k" = Except.ok "old") ∧
    ((∃ f : Failure, (Client.Put [("k", "")] none "k" "new" false).err = some f ∧
        f.kind ≠ FailKind.notFound) ∧
      (Client.Put [("k", "")] none "k" "new" false).store = [("k", "")] ∧
      (Client.Put [("k", "")] none "k" "new" false).putCalls =
        (if ("" : String) = "" then 1 else 0) ∧
      Client.Param [("k", "")] none "k" = Except.ok "") :=
  ⟨put_conflict_amended [("k", "old")] "k" "new" "old" (by decide) (by decide) (by decide),
   put_conflict_amended [("k", "")] "k" "new" "" (by decide) (by decide) (by decide)⟩

/-! ### Path retrieval with pagination (src/unnamed/part_004) -/

/-- Whether a string starts with the separator `/` — the check
`strings.HasPrefix(path, "/")` specialised to its one-character prefix. -/
def startsWithSlash (s : String) : Bool :=
  match s.data with
  | [] => false
  | c :: _ => c = '/'

/-- `Client.EnsurePathPrefix`: pure normalization — prepends `/` when
missing. -/
def EnsurePathPrefix (path : String) : String :=
  if startsWithSlash path then path else "/" ++ path

/-- One parameter entry of a backend page: the SDK's optional `Name` and
`Value` pointers. -/
abbrev PageParam := Option String × Option String

/-- One page the backend paginator yields: either a per-page error
(modelled by its message) or a list of parameter entries. -/
abbrev Page := Except String (List PageParam)

/-- The inner loop over `out.Parameters`: entries whose `Name` or `Value`
pointer is nil are skipped, the rest are assigned into the result map. -/
def insertPageParams : Store → List PageParam → Store
  | m, [] => m
  | m, (some n, some v) :: rest => insertPageParams (alistInsert m n v) rest
  | m, (none, _) :: rest => insertPageParams m rest
  | m, (some _, none) :: rest => insertPageParams m rest

/-- The `for pager.HasMorePages()` loop of `Client.ResolvePathPages` with
its two accumulators (`result` map and `failed` error collection): a page
error is appended to `failed` and the loop continues; a successful page's
entries are merged into `result`. -/
def ResolvePathPagesLoop : List Page → Store → List String → Store × List String
  | [], result, failed => (result, failed)
  | Except.error e :: rest, result, failed =>
    ResolvePathPagesLoop rest result (failed ++ [e])
  | Except.ok ps :: rest, result, failed =>
    ResolvePathPagesLoop rest (insertPageParams result ps) failed

/-- `(*failure.Multi).ErrorOrNil`: nil when nothing was collected,
otherwise the aggregate failure. -/
def multiErrorOrNil (errs : List String) : Option Failure :=
  match errs with
  | [] => none
  | es => some (failure.Multiple es)

/-- `Client.ResolvePathPages`: drives the paginator until exhausted,
starting from an empty (initialized, non-nil) result map and an empty
error collection. -/
def Client.ResolvePathPages (pages : List Page) : Store × Option Failure :=
  match ResolvePathPagesLoop pages [] [] with
  | (result, failed) => (result, multiErrorOrNil failed)

/-- Result of `Client.Path`: the accumulated map, the returned error if
any, and the normalized path handed to the backend (`none` when the call
failed before reaching the backend). -/
structure PathOutcome where
  result : Store
  err : Option Failure
  queried : Option String
deriving DecidableEq

/-- `Client.Path`: rejects an empty path, normalizes the prefix with
`EnsurePathPrefix`, builds the backend request from it, and resolves all
pages; a pagination error comes back wrapped, together with the partial
result. (The `recursive` flag and the pager-constructor nil check only
shape the backend request and are not modelled; the pager is the `pages`
sequence itself.) -/
def Client.Path (pages : List Page) (path : String) : PathOutcome :=
  if path = "" then ⟨[], some (failure.System "path is empty"), none⟩
  else
    match Client.ResolvePathPages pages with
    | (result, some e) =>
      ⟨result, some (failure.Wrap e "c.ResolvePathPages failed"), some (EnsurePathPrefix path)⟩
    | (result, none) => ⟨result, none, some (EnsurePathPrefix path)⟩

/-- Reference fold over only the successful pages, in order. -/
def foldOkPages (pages : List Page) : Store :=
  ResolvePathPagesLoop (pages.filter fun pg => pg matches Except.ok _) [] [] |>.1

/-- The per-page errors of a page sequence, in order. -/
def pageErrors (pages : List Page) : List String :=
  pages.filterMap fun pg =>
    match pg with
    | Except.error e => some e
    | Except.ok _ => none

theorem ensurePathPrefix_slash (p : String) :
    startsWithSlash (EnsurePathPrefix p) = true := by
  unfold EnsurePathPrefix
  by_cases h : startsWithSlash p = true
  · simp [h]
  · rw [if_neg h]
    have hd : ("/" ++ p).data = '/' :: p.data := rfl
    simp [startsWithSlash, hd]

theorem resolvePathPagesLoop_eq (pages : List Page) : ∀ (result : Store) (failed : List String),
    ResolvePathPagesLoop pages result failed =
      ((ResolvePathPagesLoop (pages.filter fun pg => pg matches Except.ok _) result []).1,
        failed ++ pageErrors pages) := by
  induction pages with
  | nil => intro result failed; simp [ResolvePathPagesLoop, pageErrors]
  | cons pg rest ih =>
    intro result failed
    cases pg with
    | error e =>
      simp [ResolvePathPagesLoop, pageErrors, List.filterMap_cons, ih]
    | ok ps =>
      simp [ResolvePathPagesLoop, pageErrors, List.filterMap_cons, ih]

/-- Claim C6: for a non-empty prefix, `Path` queries the backend with the
prefix normalized to start with `/`, accumulates all name/value pairs
from the successful pages across the whole sequence, returns no error
when every page succeeded, and when any page failed returns the partial
map together with an aggregate (Multiple-kind) error that collects every
per-page error — not fail-fast and not a total failure. -/
theorem path_pagination_aggregation (pages : List Page) (path : String) (hp : path ≠ "") :
    (Client.Path pages path).queried = some (EnsurePathPrefix path) ∧
    startsWithSlash (EnsurePathPrefix path) = true ∧
    (Client.Path pages path).result = foldOkPages pages ∧
    (pageErrors pages = [] → (Client.Path pages path).err = none) ∧
    (pageErrors pages ≠ [] → ∃ f : Failure, (Client.Path pages path).err = some f ∧
      f.kind = FailKind.multiple ∧ f.parts = pageErrors pages) := by
  have hloop := resolvePathPagesLoop_eq pages [] []
  by_cases herr : pageErrors pages = []
  · refine ⟨?_, ensurePathPrefix_slash path, ?_, ?_, ?_⟩ <;>
      simp [Client.Path, Client.ResolvePathPages, hp, hloop, herr, multiErrorOrNil, foldOkPages]
  · have hmulti : multiErrorOrNil (pageErrors pages) = some (failure.Multiple (pageErrors pages)) := by
      cases hpe : pageErrors pages with
      | nil => exact absurd hpe herr
      | cons a l => simp [multiErrorOrNil]
    refine ⟨?_, ensurePathPrefix_slash path, ?_, ?_, ?_⟩ <;>
      simp [Client.Path, Client.ResolvePathPages, hp, hloop, herr, hmulti, foldOkPages,
        failure.Wrap, failure.Multiple]

/-- Witness for C6 at a concrete three-page sequence whose middle page
errors: the partial map holds both successful pages' entries, the prefix
is normalized, and the aggregate error carries the one page error. -/
theorem path_pagination_aggregation_witness :
    (Client.Path [Except.ok [(some "/svc/a", some "1")], Except.error "page 2 failed",
        Except.ok [(some "/svc/b", some "2")]] "svc").queried = some "/svc" ∧
    (Client.Path [Except.ok [(some "/svc/a", some "1")], Except.error "page 2 failed",
        Except.ok [(some "/svc/b", some "2")]] "svc").result =
      [("/svc/a", "1"), ("/svc/b", "2")] ∧
    (∃ f : Failure,
      (Client.Path [Except.ok [(some "/svc/a", some "1")], Except.error "page 2 failed",
          Except.ok [(some "/svc/b", some "2")]] "svc").err = some f ∧
      f.kind = FailKind.multiple ∧ f.parts = ["page 2 failed"]) := by
  have h := path_pagination_aggregation
    [Except.ok [(some "/svc/a", some "1")], Except.error "page 2 failed",
      Except.ok [(some "/svc/b", some "2")]] "svc" (by decide)
  refine ⟨?_, ?_, ?_⟩
  · rw [h.1]; rfl
  · rw [h.2.2.1]; rfl
  · have := h.2.2.2.2 (by decide)
    simpa using this

/-! ### Batch retrieval `Client.Params` (src/unnamed/part_004) -/

/-- The loop of `Client.Params` over its keys. The Go function declares
`var result map[string]string` — a nil map — and then assigns
`result[key] = value` for every key that resolves, which is a runtime
fault (`Except.error ()` here) in Go. A failed key's error is wrapped and
put into `errs` via `errs = failure.Append(err)`, which also replaces the
previously collected errors each time; both details are modelled as
written. -/
def Client.ParamsLoop : List String → GoMap String → Option Failure → Store → Option String →
    Except Unit (GoMap String × Option Failure)
  | [], result, errs, _, _ => Except.ok (result, errs)
  | key :: rest, result, errs, s, fault =>
    match Client.Param s fault key with
    | Except.error e =>
      Client.ParamsLoop rest result
        (some (failure.Multiple [(failure.Wrap e "c.Param failed").msg])) s fault
    | Except.ok v =>
      match result with
      | GoMap.nil => Except.error ()
      | GoMap.map entries =>
        Client.ParamsLoop rest (GoMap.map (alistInsert entries key v)) errs s fault

/-- `Client.Params`: iterates `Client.Param` over the keys, starting from
the nil result map the source declares. -/
def Client.Params (s : Store) (fault : Option String) (keys : List String) :
    Except Unit (GoMap String × Option Failure) :=
  Client.ParamsLoop keys GoMap.nil none s fault

/-- Claim C9 (code bug): with one key that the backend resolves
successfully, `Params` hits a runtime fault — the assignment
`result[key] = value` writes into the nil map `var result
map[string]string` — instead of returning a map containing the resolved
entry. -/
theorem params_nil_map_fault :
    Client.Param [("k", "v")] none "k" = Except.ok "v" ∧
    Client.Params [("k", "v")] none ["k"] = Except.error () :=
  ⟨rfl, rfl⟩

/-! ### Feature environment reconciliation (src/infra/env_cmd.go)

`Infra.ServiceEnvReport` iterates the service's features. Each feature is
modelled as its display key (the map title, or `NameWithTrigger()` under
the `WithTrigger` option) together with the environment map its
`Configurable` produced through `FeatureEnvReport` (the `Configurable` is
an external collaborator, spec section 6). -/

/-- The inner loop of `ServiceEnvReport` over one feature's env map: a
name not yet in the merged map is recorded; on a repeat sight a matching
value is skipped, and a differing value is written into the `invalid` map
under the feature's key (`invalid[key] = map[string]string{env: value}` —
replacing any previous entry for that key) without touching the merged
map. -/
def mergeFeatureEnvs (key : String) :
    List (String × String) → Store → List (String × Store) → Store × List (String × Store)
  | [], result, invalid => (result, invalid)
  | (env, value) :: rest, result, invalid =>
    match alistLookup result env with
    | some existing =>
      if existing ≠ value then
        mergeFeatureEnvs key rest result (alistInsert invalid key [(env, value)])
      else
        mergeFeatureEnvs key rest result invalid
    | none => mergeFeatureEnvs key rest (alistInsert result env value) invalid

/-- The outer loop of `ServiceEnvReport` over the service's features. -/
def ServiceEnvReportLoop :
    List (String × List (String × String)) → Store → List (String × Store) →
      Store × List (String × Store)
  | [], result, invalid => (result, invalid)
  | (key, envs) :: rest, result, invalid =>
    match mergeFeatureEnvs key envs result invalid with
    | (result₂, invalid₂) => ServiceEnvReportLoop rest result₂ invalid₂

/-- `Infra.ServiceEnvReport`: merges every feature's env report into one
service-level map, starting from initialized empty merged and invalid
maps. -/
def ServiceEnvReport (features : List (String × List (String × String))) :
    Store × List (String × Store) :=
  ServiceEnvReportLoop features [] []

/-- Claim C5: reconciling a service whose feature A (seen first) defines
`n ↦ vA` and feature B defines `n ↦ vB`: with equal values the merged map
holds exactly the one entry and no conflict is recorded; with differing
values the merged map keeps A's value and the conflict map holds an entry
keyed by B's identity mapping `n` to B's value — the later value is never
applied to the merged map. -/
theorem serviceEnvReport_merge_conflicts (kA kB n vA vB : String) :
    (vA = vB →
      ServiceEnvReport [(kA, [(n, vA)]), (kB, [(n, vB)])] = ([(n, vA)], [])) ∧
    (vA ≠ vB →
      ServiceEnvReport [(kA, [(n, vA)]), (kB, [(n, vB)])] =
        ([(n, vA)], [(kB, [(n, vB)])])) := by
  constructor
  · intro h
    subst h
    simp [ServiceEnvReport, ServiceEnvReportLoop, mergeFeatureEnvs, alistLookup, alistInsert]
  · intro h
    simp [ServiceEnvReport, ServiceEnvReportLoop, mergeFeatureEnvs, alistLookup, alistInsert, h]

/-- Witness for C5: two features agreeing on `FOO=bar` merge to one entry
with zero conflicts; `A: FOO=bar` then `B: FOO=baz` keeps `FOO=bar` and
records `B ↦ {FOO: baz}` as the conflict. -/
theorem serviceEnvReport_merge_conflicts_witness :
    ServiceEnvReport [("A", [("FOO", "bar")]), ("B", [("FOO", "bar")])] =
      ([("FOO", "bar")], []) ∧
    ServiceEnvReport [("A", [("FOO", "bar")]), ("B", [("FOO", "baz")])] =
      ([("FOO", "bar")], [("B", [("FOO", "baz")])]) :=
  ⟨(serviceEnvReport_merge_conflicts "A" "B" "FOO" "bar" "bar").1 rfl,
   (serviceEnvReport_merge_conflicts "A" "B" "FOO" "bar" "baz").2 (by decide)⟩

/-! ### The handler runner `Timeout.WithTimeConstraint` (src/unnamed/part_009)

Time is modelled explicitly in milliseconds: `timeUntilDeadline` is
`time.Until(deadline)` at the moment of the call, and `handlerTime` is
the model time at which the handler closure finishes (or panics) on its
goroutine. Go's `time.After` fires immediately for a non-positive
duration, so the timer path of the `select` fires at
`max runTime 0`. When the handler finishes at exactly the moment the
timer fires, Go's `select` picks a ready case at random; the model
resolves that tie in the handler's favour, and the theorems below only
use the strict regimes on either side.

On the timeout path the model returns the zero-value `out`; the source
shares the named return values with the goroutine, so a handler write
racing the timeout could also be observed — the claims checked here do
not depend on that window. -/

/-- `DefaultFeatureTimeout`: the fixed safety margin, in milliseconds,
subtracted from the time until the deadline. -/
def DefaultFeatureTimeout : Int := 100

/-- What the handler closure does on this invocation: finish normally
with its own result and error, or panic with a recovered value. -/
inductive HandlerBehavior where
  | completes (out : Option Nat) (err : Option Failure)
  | panics (value : String)
deriving DecidableEq

/-- One invocation of the runner: whether the ambient context carries a
deadline, how far away it is, and what the handler does and when. -/
structure RunnerCall where
  hasDeadline : Bool
  timeUntilDeadline : Int
  handlerTime : Int
  behavior : HandlerBehavior
deriving DecidableEq

/-- What the caller observes: the returned result and error, the model
time at which the call returns, whether a panic escaped to the caller's
stack (terminating the process), and the `recover` log field written on
the panic path. -/
structure RunnerResult where
  out : Option Nat
  err : Option Failure
  returnTime : Int
  panicEscaped : Bool
  loggedRecover : Option String
deriving DecidableEq

/-- `Timeout.WithTimeConstraint`. No deadline: the handler runs
synchronously in the calling flow (a warning is logged) — on that path
there is no `recover`, so a panic would escape. With a deadline: the
handler runs on a goroutine racing `time.After(runTime)` where
`runTime = timeUntil(deadline) - DefaultFeatureTimeout`; finishing within
the budget delivers the handler's own result (a panic is recovered into
`failure.Panic "invocation"`, with the recovered value and stack written
to the log fields, before the completion signal); otherwise the select's
timer case fires and the call returns `failure.Timeout`. -/
def WithTimeConstraint (c : RunnerCall) : RunnerResult :=
  if !c.hasDeadline then
    match c.behavior with
    | HandlerBehavior.completes o e => ⟨o, e, c.handlerTime, false, none⟩
    | HandlerBehavior.panics _ => ⟨none, none, c.handlerTime, true, none⟩
  else
    let runTime := c.timeUntilDeadline - DefaultFeatureTimeout
    let wait := max runTime 0
    if c.handlerTime ≤ wait then
      match c.behavior with
      | HandlerBehavior.completes o e => ⟨o, e, c.handlerTime, false, none⟩
      | HandlerBehavior.panics r =>
        ⟨none, some (failure.Panic "invocation"), c.handlerTime, false, some r⟩
    else
      ⟨none, some (failure.Timeout "invocation timeout"), wait, false, none⟩

/-- Claim C2: with a deadline present, the budget is
`timeUntil(deadline) - 100ms`; a handler that has not completed when the
budget elapses yields a Timeout failure returned exactly when the (never
negative) wait elapses — no later than the budget — and a deadline
already in the past or within the margin produces the timeout at model
time `0` rather than waiting a negative duration. -/
theorem withTimeConstraint_timeout_budget (c : RunnerCall) (hd : c.hasDeadline = true)
    (h : max (c.timeUntilDeadline - DefaultFeatureTimeout) 0 < c.handlerTime) :
    DefaultFeatureTimeout = 100 ∧
    (WithTimeConstraint c).err = some (failure.Timeout "invocation timeout") ∧
    (WithTimeConstraint c).returnTime = max (c.timeUntilDeadline - DefaultFeatureTimeout) 0 ∧
    (c.timeUntilDeadline - DefaultFeatureTimeout ≤ 0 →
      (WithTimeConstraint c).returnTime = 0) := by
  have hw : ¬ (c.handlerTime ≤ max (c.timeUntilDeadline - DefaultFeatureTimeout) 0) :=
    not_le.mpr h
  refine ⟨rfl, ?_, ?_, ?_⟩
  · simp [WithTimeConstraint, hd, hw]
  · simp [WithTimeConstraint, hd, hw]
  · intro hneg
    have hw0 : ¬ c.handlerTime ≤ (0 : Int) := by
      rw [max_eq_right hneg] at hw
      exact hw
    simp [WithTimeConstraint, hd, max_eq_right hneg, hw0]

/-- Witness for C2: deadline only 50ms away (inside the 100ms margin), a
handler still running at model time 1 — the call is an immediate timeout
at model time 0. -/
theorem withTimeConstraint_timeout_budget_witness :
    (WithTimeConstraint ⟨true, 50, 1, HandlerBehavior.completes none none⟩).err =
      some (failure.Timeout "invocation timeout") ∧
    (WithTimeConstraint ⟨true, 50, 1, HandlerBehavior.completes none none⟩).returnTime = 0 := by
  have h := withTimeConstraint_timeout_budget
    ⟨true, 50, 1, HandlerBehavior.completes none none⟩ rfl (by decide)
  exact ⟨h.2.1, h.2.2.2 (by decide)⟩

/-- A concrete invocation: ample deadline, the handler panics with
`"boom"` at model time 1. -/
def boomCall : RunnerCall := ⟨true, 10000, 1, HandlerBehavior.panics "boom"⟩

/-- Is `needle` a prefix of the character list? -/
def listPrefixOf : List Char → List Char → Bool
  | [], _ => true
  | _ :: _, [] => false
  | a :: as, b :: bs => a == b && listPrefixOf as bs

/-- Does the character list contain `needle` as a contiguous sublist? -/
def listContainsSub : List Char → List Char → Bool
  | _, [] => true
  | [], _ :: _ => false
  | c :: cs, n => listPrefixOf n (c :: cs) || listContainsSub cs n

/-- Does `hay` contain `needle` as a substring? -/
def hasSubstring (hay needle : String) : Bool :=
  listContainsSub hay.data needle.data

/-- Counterexample for C3: the handler panics with `"boom"`, the runner
returns a Panic-kind failure — but its message is the fixed string
`"invocation"` (the call is `failure.Panic("invocation")`), which does
not embed `"boom"`; the recovered value only reaches the log fields. -/
theorem panic_message_counterexample :
    (WithTimeConstraint boomCall).err = some (failure.Panic "invocation") ∧
    (failure.Panic "invocation").kind = FailKind.panicked ∧
    hasSubstring (failure.Panic "invocation").msg "boom" = false ∧
    (WithTimeConstraint boomCall).loggedRecover = some "boom" := by
  refine ⟨by decide, rfl, by decide, by decide⟩

/-- Claim C3 as amended: a handler that panics (with any value) while
executing under a deadline and within the budget yields a Panic-kind
failure whose message is the fixed string `"invocation"`; the recovered
value is written to the `recover` log field rather than the error
message, the panic does not escape to the caller's stack, and the
process does not terminate. -/
theorem panic_recovery_amended (c : RunnerCall) (r : String) (hd : c.hasDeadline = true)
    (hb : c.behavior = HandlerBehavior.panics r)
    (hw : c.handlerTime ≤ max (c.timeUntilDeadline - DefaultFeatureTimeout) 0) :
    (WithTimeConstraint c).err = some (failure.Panic "invocation") ∧
    failure.IsPanic (failure.Panic "invocation") = true ∧
    (WithTimeConstraint c).panicEscaped = false ∧
    (WithTimeConstraint c).loggedRecover = some r := by
  refine ⟨?_, rfl, ?_, ?_⟩ <;> simp [WithTimeConstraint, hd, hw, hb]

/-- Witness for C3's amended claim at the concrete `"boom"` invocation. -/
theorem panic_recovery_amended_witness :
    (WithTimeConstraint boomCall).err = some (failure.Panic "invocation") ∧
    failure.IsPanic (failure.Panic "invocation") = true ∧
    (WithTimeConstraint boomCall).panicEscaped = false ∧
    (WithTimeConstraint boomCall).loggedRecover = some "boom" :=
  panic_recovery_amended boomCall "boom" rfl rfl (by decide)

/-! ### The completion channel (src/unnamed/part_009, claim C4)

The source builds the completion signal as
`completed := make(chan interface{})` — capacity zero — and both the
normal path and the panic path deliver with the plain blocking send
`completed <- struct{}{}`. Once the caller returns through the timeout
case of the `select`, no receiver on `completed` ever exists again, so a
send from the abandoned goroutine completes only if the channel has spare
buffer capacity or the send is non-blocking (a `select` with `default`). -/

/-- Capacity of `completed := make(chan interface{})` in the source. -/
def completedChannelCapacity : Nat := 0

/-- Whether the source's sends on `completed` are non-blocking: both are
plain `completed <- struct{}{}` sends. -/
def completedSendIsNonBlocking : Bool := false

/-- Whether a send on the completion channel by the abandoned goroutine
(after the caller has taken the timeout path, so no receiver remains) can
ever complete: only with a non-blocking send or spare buffer capacity. -/
def abandonedSendCompletes (capacity : Nat) (nonBlocking : Bool) : Bool :=
  nonBlocking || decide (0 < capacity)

/-- Claim C4 (code bug): the completion channel is unbuffered and both
sends are plain blocking sends, so the abandoned task's eventual write to
the channel blocks forever once the timeout path has returned — the
channel is neither buffered nor written with a guaranteed non-blocking
send, and the spawned goroutine is leaked. -/
theorem completedChannel_unbuffered_bug :
    completedChannelCapacity = 0 ∧
    completedSendIsNonBlocking = false ∧
    abandonedSendCompletes completedChannelCapacity completedSendIsNonBlocking = false :=
  ⟨rfl, rfl, rfl⟩

/-! ### API Gateway failure adapter (src/unnamed/part_014 / src/apigw/response.go) -/

/-- `http.StatusText` for the status codes the adapter produces. -/
def statusText (code : Nat) : String :=
  match code with
  | 502 => "Bad Gateway"
  | 504 => "Gateway Timeout"
  | 404 => "Not Found"
  | 401 => "Unauthorized"
  | 403 => "Forbidden"
  | 500 => "Internal Server Error"
  | _ => ""

/-- `events.APIGatewayProxyResponse`: status code, headers map (nil-able
in Go), and body. -/
structure APIGatewayProxyResponse where
  statusCode : Nat
  headers : GoMap String
  body : String
deriving DecidableEq

/-- The JSON error body `apigw.ErrorResponse` (its `Fields` and the
RestAPI-specific overrides concern external failure decorations not
modelled here). -/
structure ErrorRespBody where
  message : String
  id : String
  status : Nat
deriving DecidableEq

/-- `apigw.FailureToGatewayResponse`: maps the failure kind to an HTTP
status (Panic→502, Timeout→504, NotFound→404, default→500; the
RestAPI/NotAuthorized/NotAuthenticated branches concern failure
classifications of the external error package not carried by this model)
and sets the status text as the provisional body. The returned
`events.APIGatewayProxyResponse{}` literal leaves `Headers` as a Go nil
map. -/
def FailureToGatewayResponse (f : Failure) : APIGatewayProxyResponse :=
  let code : Nat :=
    if failure.IsPanic f then 502
    else if failure.IsTimeout f then 504
    else if failure.IsNotFound f then 404
    else 500
  ⟨code, GoMap.nil, statusText code⟩

/-- `apigw.ProcessFailure`: builds the gateway response for an error
outcome. When the request carries headers they replace the response's
headers; then `resp.Headers[HeaderAccessCtrlAllowOrigin] = "*"` and
`resp.Headers[HeaderContentType] = JsonMediaType` are assigned — a
runtime fault (`Except.error ()`) when that map is still the nil map
`FailureToGatewayResponse` produced. The JSON marshalling of the error
body is represented by returning the `ErrorRespBody` alongside; the
logging calls have no modelled effect. -/
def ProcessFailure (f : Failure) (reqHeaders : GoMap String) (requestID : String) :
    Except Unit (APIGatewayProxyResponse × ErrorRespBody) :=
  let resp := FailureToGatewayResponse f
  let hs :=
    match reqHeaders with
    | GoMap.map entries => GoMap.map entries
    | GoMap.nil => resp.headers
  match hs with
  | GoMap.nil => Except.error ()
  | GoMap.map entries =>
    let entries₂ := alistInsert entries "Access-Control-Allow-Origin" "*"
    let entries₃ := alistInsert entries₂ "Content-Type" "application/json"
    Except.ok (⟨resp.statusCode, GoMap.map entries₃, resp.body⟩,
      ⟨statusText resp.statusCode, requestID, resp.statusCode⟩)

/-- Claim C10 (code bug): for a request whose `Headers` map is nil,
`ProcessFailure` hits a runtime fault — `FailureToGatewayResponse` left
`resp.Headers` nil, the `req.Headers != nil` guard keeps it nil, and the
header assignments then write into a nil map — while the same call with a
(possibly empty) non-nil headers map completes and sets Content-Type to
application/json and Access-Control-Allow-Origin to `*`. -/
theorem processFailure_nil_headers_bug :
    ProcessFailure (failure.Timeout "invocation timeout") GoMap.nil "req-1" =
      Except.error () ∧
    ProcessFailure (failure.Timeout "invocation timeout") (GoMap.map []) "req-1" =
      Except.ok (⟨504,
        GoMap.map [("Access-Control-Allow-Origin", "*"), ("Content-Type", "application/json")],
        "Gateway Timeout"⟩,
        ⟨"Gateway Timeout", "req-1", 504⟩) :=
  ⟨rfl, rfl⟩
